import Mathlib

set_option autoImplicit false

/-
Verification of the payment-session protocol (X402PayService) and the
smart-wallet operation executor (SmartWalletService) of the CollabraChain
agent repository, as a shallow embedding in Lean 4.

Conventions of the embedding:
* The JavaScript `Map` holding pending payments is an association list in
  insertion order (`Map.set` on a fresh key appends; `Map.delete` removes).
* Long-latency external calls (the facilitator fetches, the smart-account
  provider) are passed in as explicit outcome values: the embedding of a
  method is a pure function of the store, the method arguments and the
  outcomes of the external calls it performs.
* `Date.now()/1000` is passed in as an explicit `now : Nat`.
* Randomness (uuidv4, the nonce) is passed in as explicit arguments.
* Side effects other than store mutation that matter to the claims
  (removing a session, posting to the settle endpoint, posting to the
  verify endpoint) are recorded in an event trace, in program order.
-/

namespace X402

/-- Pricing entry of the scenario table: amount in the smallest currency
unit, currency tag, human description. -/
structure ScenarioConfig where
  amount : String
  currency : String
  description : String
deriving Repr, DecidableEq

/-- The closed set of scenario keys of `X402_PAYMENT_SCENARIOS`. -/
inductive Scenario where
  | AI_PROJECT_CREATION
  | APPLICATION_SIGNAL_FEE
  | MILESTONE_APPROVAL_FEE
  | DISPUTE_BOND
deriving Repr, DecidableEq

/-- The static pricing table `X402_PAYMENT_SCENARIOS` of the source. -/
def X402_PAYMENT_SCENARIOS : Scenario → ScenarioConfig
  | .AI_PROJECT_CREATION =>
      ⟨"1000000", "USDC", "AI-Assisted Project Creation"⟩
  | .APPLICATION_SIGNAL_FEE =>
      ⟨"500000", "USDC", "Project Application Signal Fee"⟩
  | .MILESTONE_APPROVAL_FEE =>
      ⟨"2000000", "USDC", "Milestone Approval Service Fee"⟩
  | .DISPUTE_BOND =>
      ⟨"10000000", "USDC", "Dispute Resolution Bond"⟩

/-- `X402PaymentResponse`: a stored payment challenge. -/
structure X402PaymentResponse where
  paymentId : String
  amount : String
  currency : String
  recipient : String
  deadline : Nat
  nonce : String
deriving Repr, DecidableEq

/-- `X402PaymentVerification`: the result record of `verifyPayment`. -/
structure X402PaymentVerification where
  paymentId : String
  transactionHash : String
  verified : Bool
  amount : String
  timestamp : Nat
deriving Repr, DecidableEq

/-- The `pendingPayments` JavaScript `Map`, in insertion order. -/
abbrev PendingMap := List (String × X402PaymentResponse)

/-- `Map.get`. -/
def mapGet (m : PendingMap) (k : String) : Option X402PaymentResponse :=
  (m.find? (fun e => e.1 = k)).map (fun e => e.2)

/-- `Map.has`. -/
def mapHas (m : PendingMap) (k : String) : Bool :=
  (mapGet m k).isSome

/-- `Map.set`: updates an existing key in place, otherwise appends. -/
def mapSet (m : PendingMap) (k : String) (v : X402PaymentResponse) :
    PendingMap :=
  if mapHas m k then
    m.map (fun e => if e.1 = k then (k, v) else e)
  else
    m ++ [(k, v)]

/-- `Map.delete`. -/
def mapDelete (m : PendingMap) (k : String) : PendingMap :=
  m.filter (fun e => ¬ e.1 = k)

/-- Outcome of the awaited `fetch` to the facilitator verify endpoint:
the fetch may throw (transport fault), resolve with a non-ok response, or
resolve ok with a JSON body.  In the JSON body the `verified` field may be
absent (the source guards with `verified || false`), and `amount` and
`reason` are optional. -/
inductive VerifyFetchOutcome where
  | transportError (msg : String)
  | httpError (statusText : String)
  | ok (verified : Option Bool) (amount : Option String)
      (reason : Option String)
deriving Repr, DecidableEq

/-- Outcome of the awaited `fetch` to the facilitator settle endpoint. -/
inductive SettleFetchOutcome where
  | transportError (msg : String)
  | httpError (status : Nat) (statusText : String)
  | ok
deriving Repr, DecidableEq

/-- JavaScript `a || b` on an optional string: `undefined` and the empty
string are falsy and fall through to the default. -/
def jsOrString : Option String → String → String
  | some s, d => if s = "" then d else s
  | none, d => d

/-- Observable external effects of `verifyPayment`, in program order. -/
inductive X402Event where
  | verifyRequested (paymentId transactionHash expectedAmount
      expectedRecipient expectedCurrency : String)
  | sessionRemoved (paymentId : String)
  | settleRequested (paymentId : String) (transactionHash : String)
deriving Repr, DecidableEq

/-- `settlePayment`: posts to the facilitator settle endpoint; a non-ok
response and a thrown transport error are both only logged, so the method
resolves normally on every outcome and has no effect on the store. -/
def settlePayment (_outcome : SettleFetchOutcome) : Unit := ()

/-- Full result of one `verifyPayment` call: the returned verification
record, the pending-payment store after the call, and the event trace. -/
structure VerifyResult where
  verification : X402PaymentVerification
  store : PendingMap
  events : List X402Event
deriving Repr, DecidableEq

/-- The `try` block of `verifyPayment`.  `throw` is modelled as `.error`
carrying the message together with the events already performed. -/
def verifyPaymentTry (store : PendingMap)
    (paymentId transactionHash : String)
    (fetchOutcome : VerifyFetchOutcome)
    (settleOutcome : SettleFetchOutcome) (now : Nat) :
    Except (String × List X402Event) VerifyResult :=
  match mapGet store paymentId with
  | none => .error ("Payment not found", [])
  | some pendingPayment =>
    let sent : X402Event :=
      .verifyRequested paymentId transactionHash pendingPayment.amount
        pendingPayment.recipient pendingPayment.currency
    match fetchOutcome with
    | .transportError msg => .error (msg, [sent])
    | .httpError statusText =>
        .error ("Verification failed: " ++ statusText, [sent])
    | .ok v amt _reason =>
      let verification : X402PaymentVerification :=
        { paymentId := paymentId
          transactionHash := transactionHash
          verified := v.getD false
          amount := jsOrString amt pendingPayment.amount
          timestamp := now }
      if verification.verified then
        let store1 := mapDelete store paymentId
        let _ := settlePayment settleOutcome
        .ok ⟨verification, store1,
          [sent, .sessionRemoved paymentId,
           .settleRequested paymentId transactionHash]⟩
      else
        .ok ⟨verification, store, [sent]⟩

/-- `verifyPayment`: the `try` block wrapped by the `catch` that converts
any thrown fault into the structured unverified fallback result, leaving
the store untouched. -/
def verifyPayment (store : PendingMap)
    (paymentId transactionHash : String)
    (fetchOutcome : VerifyFetchOutcome)
    (settleOutcome : SettleFetchOutcome) (now : Nat) : VerifyResult :=
  match verifyPaymentTry store paymentId transactionHash fetchOutcome
      settleOutcome now with
  | .ok r => r
  | .error (_msg, evs) =>
      ⟨{ paymentId := paymentId
         transactionHash := transactionHash
         verified := false
         amount := "0"
         timestamp := now }, store, evs⟩

/-- Result of `generatePaymentRequest`: the challenge and the grown store. -/
structure GenerateResult where
  request : X402PaymentResponse
  store : PendingMap
deriving Repr, DecidableEq

/-- `generatePaymentRequest`: looks up the scenario pricing, builds the
challenge with `deadline = now + 3600`, stores it keyed by the fresh id
(`uuid` and `nonce` stand for the values drawn from the generators). -/
def generatePaymentRequest (store : PendingMap)
    (recipientAddress : String) (scenario : Scenario)
    (uuid nonce : String) (now : Nat) : GenerateResult :=
  let config := X402_PAYMENT_SCENARIOS scenario
  let deadline := now + 3600
  let paymentRequest : X402PaymentResponse :=
    { paymentId := uuid
      amount := config.amount
      currency := config.currency
      recipient := recipientAddress
      deadline := deadline
      nonce := nonce }
  ⟨paymentRequest, mapSet store uuid paymentRequest⟩

/-- Headers of the 402 envelope built by `create402Response`. -/
structure Headers402 where
  contentType : String
  xPaymentRequired : String
  xPaymentAmount : String
  xPaymentCurrency : String
  xPaymentRecipient : String
  xPaymentId : String
deriving Repr, DecidableEq

/-- The `payment` object of the 402 body. -/
structure Body402Payment where
  id : String
  amount : String
  currency : String
  recipient : String
  deadline : Nat
  description : String
  facilitator : String
deriving Repr, DecidableEq

/-- Body of the 402 envelope. -/
structure Body402 where
  error : String
  code : Nat
  message : String
  payment : Body402Payment
deriving Repr, DecidableEq

/-- The HTTP-style envelope returned by `create402Response`. -/
structure Response402 where
  status : Nat
  headers : Headers402
  body : Body402
deriving Repr, DecidableEq

/-- `create402Response`: generates the payment request (growing the store)
and wraps it in the status-402 envelope. -/
def create402Response (store : PendingMap)
    (facilitatorUrl recipientAddress : String) (scenario : Scenario)
    (uuid nonce : String) (now : Nat) : Response402 × PendingMap :=
  let g := generatePaymentRequest store recipientAddress scenario uuid
    nonce now
  let config := X402_PAYMENT_SCENARIOS scenario
  (⟨402,
    ⟨"application/json", "x402", g.request.amount, g.request.currency,
     g.request.recipient, g.request.paymentId⟩,
    ⟨"Payment Required", 402, config.description,
     ⟨g.request.paymentId, g.request.amount, g.request.currency,
      g.request.recipient, g.request.deadline, config.description,
      facilitatorUrl⟩⟩⟩,
   g.store)

/-- `isPaymentPending`. -/
def isPaymentPending (store : PendingMap) (paymentId : String) : Bool :=
  mapHas store paymentId

/-- `getPendingPayment`. -/
def getPendingPayment (store : PendingMap) (paymentId : String) :
    Option X402PaymentResponse :=
  mapGet store paymentId

/-- `cleanupExpiredPayments`: deletes every entry with
`payment.deadline < now`; deleting during iteration of a JavaScript `Map`
is the same as filtering in insertion order. -/
def cleanupExpiredPayments (store : PendingMap) (now : Nat) : PendingMap :=
  store.filter (fun e => ¬ e.2.deadline < now)

/-- States that the facilitator verify fetch resolved ok with a body whose
`verified` field is effectively true. -/
def reportsVerified : VerifyFetchOutcome → Bool
  | .ok v _ _ => v.getD false
  | _ => false

end X402

namespace Viem

/-- Big-endian digit list of a natural number, the digit order of the
JavaScript decimal string `n.toString()`; zero renders as the empty list
(use sites pad or substitute the single digit 0, as the source does via
padding and the `integer || "0"` fallback). -/
def digitsBE (n : Nat) : List Nat := (Nat.digits 10 n).reverse

/-- Numeric value of a big-endian digit string, `BigInt(s)` on digits. -/
def valBE (l : List Nat) : Nat := l.foldl (fun acc d => acc * 10 + d) 0

/-- `padStart(len, "0")` on a big-endian digit string. -/
def padStartZeros (len : Nat) (l : List Nat) : List Nat :=
  List.replicate (len - l.length) 0 ++ l

/-- `replace(/(0+)$/, "")`: strip the trailing zeros of a digit string. -/
def stripTrailingZeros (l : List Nat) : List Nat :=
  (l.reverse.dropWhile (fun d => d == 0)).reverse

/-- A decimal amount string `-?I.F` in structured form: sign flag, the
integer part read as a number, and the fraction digits in order; an empty
fraction is a string without a fractional part.  This is the
digit-level image of the strings fed to `parseUnits` and produced by
`formatUnits`. -/
structure DecimalAmount where
  negative : Bool
  integer : Nat
  fraction : List Nat
deriving Repr, DecidableEq

/-- viem `parseUnits(value, decimals)` as called by `transferTokens` and
`createProject`: strips trailing fractional zeros, pads the fraction to
`decimals` digits and reads the concatenation of integer and fraction
digits as one integer, negated for a negative input.  The source branch
taken when more fractional digits than `decimals` remain performs
floating-point rounding and is outside the modelled domain (`none`); the
round-trip claim concerns only inputs with at most `decimals` fractional
digits, which never reach that branch. -/
def parseUnits (value : DecimalAmount) (decimals : Nat) : Option Int :=
  let fraction := stripTrailingZeros value.fraction
  if fraction.length > decimals then none
  else
    let padded :=
      fraction ++ List.replicate (decimals - fraction.length) 0
    let magnitude := value.integer * 10 ^ decimals + valBE padded
    some (if value.negative then -(magnitude : Int) else (magnitude : Int))

/-- viem `formatUnits(value, decimals)` as called by `getTokenBalance`:
renders the magnitude, pads it to at least `decimals` digits, splits off
the last `decimals` digits as the fraction, strips the fraction's
trailing zeros; an empty integer part renders as 0 and an empty fraction
omits the decimal point. -/
def formatUnits (value : Int) (decimals : Nat) : DecimalAmount :=
  let negative := decide (value < 0)
  let display := digitsBE value.natAbs
  let padded := padStartZeros decimals display
  let integer := padded.take (padded.length - decimals)
  let fraction :=
    stripTrailingZeros (padded.drop (padded.length - decimals))
  ⟨negative, valBE integer, fraction⟩

end Viem

namespace SmartWallet

/-- Status values of `SmartWalletUserOperation` in types.ts. -/
inductive OpStatus where
  | pending
  | complete
  | failed
deriving Repr, DecidableEq

/-- `SmartWalletUserOperation` of types.ts; the receipt is opaque to the
claims and is carried as an uninterpreted token. -/
structure SmartWalletUserOperation where
  userOpHash : String
  transactionHash : Option String := none
  status : OpStatus
  receipt : Option String := none
  error : Option String := none
deriving Repr, DecidableEq

/-- Outcome of the awaited provider call `evm.waitForUserOperation`: the
promise may resolve with a status record, reject (throw), or never
settle.  `neverResolves` models a provider that never reaches a terminal
state and never rejects, so the await never completes. -/
inductive ProviderWaitOutcome where
  | resolves (status : String) (transactionHash : Option String)
      (receipt : Option String)
  | throws (err : String)
  | neverResolves
deriving Repr, DecidableEq

/-- `waitForUserOperation`: a single awaited provider call with no
timeout argument and no timeout logic of its own; a rejection is caught
and converted to a failed result, a non-complete resolution becomes a
failed result, and `none` means the call never returns because the
provider call never settles. -/
def waitForUserOperation (userOpHash : String) :
    ProviderWaitOutcome → Option SmartWalletUserOperation
  | .resolves status txHash receipt =>
    if status = "complete" then
      some { userOpHash := userOpHash, transactionHash := txHash,
             status := .complete, receipt := receipt }
    else
      some { userOpHash := userOpHash, status := .failed,
             error := some "Transaction failed" }
  | .throws e =>
      some { userOpHash := userOpHash, status := .failed,
             error := some e }
  | .neverResolves => none

end SmartWallet

/-- Shared concrete session used by the witness theorems. -/
def samplePayment : X402.X402PaymentResponse :=
  ⟨"p1", "1000000", "USDC", "0xrecipient", 100, "nonce1"⟩

/-- Shared concrete one-session store used by the witness theorems. -/
def sampleStore : X402.PendingMap := [("p1", samplePayment)]

namespace X402

/-- Deleting a key makes it unreachable. -/
theorem mapGet_mapDelete_self (m : PendingMap) (k : String) :
    mapGet (mapDelete m k) k = none := by
  induction m with
  | nil => rfl
  | cons e t ih =>
    by_cases h : e.1 = k
    · rw [show mapDelete (e :: t) k = mapDelete t k by
        simp [mapDelete, List.filter_cons, h]]
      exact ih
    · simp [mapDelete, mapGet, List.filter_cons, List.find?_cons, h]

/-- Setting an absent key appends it. -/
theorem mapSet_of_not_has (m : PendingMap) (k : String)
    (v : X402PaymentResponse) (h : mapHas m k = false) :
    mapSet m k v = m ++ [(k, v)] := by
  simp [mapSet, h]

/-- Lookup after appending a fresh binding finds it. -/
theorem mapGet_append_single_self (m : PendingMap) (k : String)
    (v : X402PaymentResponse) (h : mapGet m k = none) :
    mapGet (m ++ [(k, v)]) k = some v := by
  have hf : m.find? (fun e => e.1 = k) = none := by
    simpa [mapGet] using h
  simp [mapGet, List.find?_append, hf, List.find?_cons]

/-- Appending a binding for one key does not change any other key. -/
theorem mapGet_append_single_ne (m : PendingMap) (k k2 : String)
    (v : X402PaymentResponse) (h : k2 ≠ k) :
    mapGet (m ++ [(k, v)]) k2 = mapGet m k2 := by
  have hne : ¬ k = k2 := fun hk => h hk.symm
  cases hf : m.find? (fun e => e.1 = k2) with
  | some e => simp [mapGet, List.find?_append, hf]
  | none => simp [mapGet, List.find?_append, hf, List.find?_cons, hne]

/-- On an unknown or already-consumed id, `verifyPayment` takes the catch
path: the structured unverified fallback, the store untouched, no external
calls made. -/
theorem verifyPayment_not_found (store : PendingMap)
    (paymentId transactionHash : String) (fo : VerifyFetchOutcome)
    (so : SettleFetchOutcome) (now : Nat)
    (h : mapGet store paymentId = none) :
    verifyPayment store paymentId transactionHash fo so now =
      ⟨⟨paymentId, transactionHash, false, "0", now⟩, store, []⟩ := by
  simp [verifyPayment, verifyPaymentTry, h]

/-- The settle outcome is never inspected: `settlePayment` swallows every
failure, so the whole `verifyPayment` result is independent of it. -/
theorem verifyPayment_settle_independent (store : PendingMap)
    (paymentId transactionHash : String) (fo : VerifyFetchOutcome)
    (so so2 : SettleFetchOutcome) (now : Nat) :
    verifyPayment store paymentId transactionHash fo so now =
      verifyPayment store paymentId transactionHash fo so2 now := rfl

/-- Success branch: stored session, facilitator reports verified. -/
theorem verifyPayment_ok_true (store : PendingMap) (id tx : String)
    (v : Option Bool) (a r : Option String) (so : SettleFetchOutcome)
    (now : Nat) (p : X402PaymentResponse)
    (hg : mapGet store id = some p) (hv : v.getD false = true) :
    verifyPayment store id tx (.ok v a r) so now =
      ⟨⟨id, tx, true, jsOrString a p.amount, now⟩, mapDelete store id,
       [.verifyRequested id tx p.amount p.recipient p.currency,
        .sessionRemoved id, .settleRequested id tx]⟩ := by
  simp [verifyPayment, verifyPaymentTry, hg, hv]

/-- Rejection branch: stored session, facilitator reports unverified. -/
theorem verifyPayment_ok_false (store : PendingMap) (id tx : String)
    (v : Option Bool) (a r : Option String) (so : SettleFetchOutcome)
    (now : Nat) (p : X402PaymentResponse)
    (hg : mapGet store id = some p) (hv : v.getD false = false) :
    verifyPayment store id tx (.ok v a r) so now =
      ⟨⟨id, tx, false, jsOrString a p.amount, now⟩, store,
       [.verifyRequested id tx p.amount p.recipient p.currency]⟩ := by
  simp [verifyPayment, verifyPaymentTry, hg, hv]

/-- Transport-fault branch: the fetch threw; the catch path returns the
fallback and leaves the store untouched. -/
theorem verifyPayment_transport_error (store : PendingMap)
    (id tx msg : String) (so : SettleFetchOutcome) (now : Nat)
    (p : X402PaymentResponse) (hg : mapGet store id = some p) :
    verifyPayment store id tx (.transportError msg) so now =
      ⟨⟨id, tx, false, "0", now⟩, store,
       [.verifyRequested id tx p.amount p.recipient p.currency]⟩ := by
  simp [verifyPayment, verifyPaymentTry, hg]

/-- Non-ok-response branch: the source throws, the catch path returns the
fallback and leaves the store untouched. -/
theorem verifyPayment_http_error (store : PendingMap)
    (id tx statusText : String) (so : SettleFetchOutcome) (now : Nat)
    (p : X402PaymentResponse) (hg : mapGet store id = some p) :
    verifyPayment store id tx (.httpError statusText) so now =
      ⟨⟨id, tx, false, "0", now⟩, store,
       [.verifyRequested id tx p.amount p.recipient p.currency]⟩ := by
  simp [verifyPayment, verifyPaymentTry, hg]

end X402

/-- C1: at-most-once redemption.  If `verifyPayment` returns a result with
`verified = true` for an id then the session was stored, the event trace
shows the session removed from the pending store before settlement was
invoked, the id is absent from the resulting store, and every subsequent
`verifyPayment` call for the same id on that store returns an unverified
result and leaves the store unchanged, so a session is never verified
twice. -/
theorem C1_at_most_once_redemption (store : X402.PendingMap)
    (id tx : String) (fo : X402.VerifyFetchOutcome)
    (so : X402.SettleFetchOutcome) (now : Nat)
    (h : (X402.verifyPayment store id tx fo so now).verification.verified
      = true) :
    (∃ p, X402.mapGet store id = some p ∧
      (X402.verifyPayment store id tx fo so now).events =
        [X402.X402Event.verifyRequested id tx p.amount p.recipient
          p.currency,
         X402.X402Event.sessionRemoved id,
         X402.X402Event.settleRequested id tx]) ∧
    X402.mapGet (X402.verifyPayment store id tx fo so now).store id
      = none ∧
    ∀ tx2 fo2 so2 now2,
      (X402.verifyPayment (X402.verifyPayment store id tx fo so now).store
          id tx2 fo2 so2 now2).verification.verified = false ∧
      (X402.verifyPayment (X402.verifyPayment store id tx fo so now).store
          id tx2 fo2 so2 now2).store =
        (X402.verifyPayment store id tx fo so now).store := by
  rcases hg : X402.mapGet store id with _ | p
  · rw [X402.verifyPayment_not_found store id tx fo so now hg] at h
    simp at h
  · cases fo with
    | transportError msg =>
      rw [X402.verifyPayment_transport_error store id tx msg so now p hg]
        at h
      simp at h
    | httpError st =>
      rw [X402.verifyPayment_http_error store id tx st so now p hg] at h
      simp at h
    | ok v a r =>
      by_cases hv : v.getD false = true
      · rw [X402.verifyPayment_ok_true store id tx v a r so now p hg hv]
        have habs : X402.mapGet (X402.mapDelete store id) id = none :=
          X402.mapGet_mapDelete_self store id
        refine ⟨⟨p, rfl, rfl⟩, habs, ?_⟩
        intro tx2 fo2 so2 now2
        rw [X402.verifyPayment_not_found _ id tx2 fo2 so2 now2 habs]
        exact ⟨rfl, rfl⟩
      · rw [X402.verifyPayment_ok_false store id tx v a r so now p hg
          (by simpa using hv)] at h
        simp at h

/-- C1 witness: a verified redemption on a concrete store. -/
theorem C1_at_most_once_redemption_witness :
    ((X402.verifyPayment sampleStore "p1" "0xtx"
        (X402.VerifyFetchOutcome.ok (some true) none none)
        X402.SettleFetchOutcome.ok 50).verification.verified = true) ∧
    ((∃ p, X402.mapGet sampleStore "p1" = some p ∧
      (X402.verifyPayment sampleStore "p1" "0xtx"
        (X402.VerifyFetchOutcome.ok (some true) none none)
        X402.SettleFetchOutcome.ok 50).events =
        [X402.X402Event.verifyRequested "p1" "0xtx" p.amount p.recipient
          p.currency,
         X402.X402Event.sessionRemoved "p1",
         X402.X402Event.settleRequested "p1" "0xtx"]) ∧
    X402.mapGet (X402.verifyPayment sampleStore "p1" "0xtx"
        (X402.VerifyFetchOutcome.ok (some true) none none)
        X402.SettleFetchOutcome.ok 50).store "p1" = none ∧
    ∀ tx2 fo2 so2 now2,
      (X402.verifyPayment (X402.verifyPayment sampleStore "p1" "0xtx"
          (X402.VerifyFetchOutcome.ok (some true) none none)
          X402.SettleFetchOutcome.ok 50).store
          "p1" tx2 fo2 so2 now2).verification.verified = false ∧
      (X402.verifyPayment (X402.verifyPayment sampleStore "p1" "0xtx"
          (X402.VerifyFetchOutcome.ok (some true) none none)
          X402.SettleFetchOutcome.ok 50).store
          "p1" tx2 fo2 so2 now2).store =
        (X402.verifyPayment sampleStore "p1" "0xtx"
          (X402.VerifyFetchOutcome.ok (some true) none none)
          X402.SettleFetchOutcome.ok 50).store) :=
  ⟨by decide,
   C1_at_most_once_redemption sampleStore "p1" "0xtx"
     (X402.VerifyFetchOutcome.ok (some true) none none)
     X402.SettleFetchOutcome.ok 50 (by decide)⟩

/-- C4: settlement is best-effort and non-reverting.  When the facilitator
reports verified for a stored session, the returned result has
`verified = true` for every settle outcome (failure or transport fault
included), the whole call result is independent of the settle outcome, and
the removed session is not restored by a settlement failure. -/
theorem C4_settlement_best_effort (store : X402.PendingMap)
    (id tx : String) (v : Option Bool) (a r : Option String) (now : Nat)
    (p : X402.X402PaymentResponse)
    (hg : X402.mapGet store id = some p) (hv : v.getD false = true) :
    ∀ so : X402.SettleFetchOutcome,
      ((X402.verifyPayment store id tx (.ok v a r) so
          now).verification.verified = true) ∧
      (X402.mapGet (X402.verifyPayment store id tx (.ok v a r) so
          now).store id = none) ∧
      (∀ so2, X402.verifyPayment store id tx (.ok v a r) so now =
        X402.verifyPayment store id tx (.ok v a r) so2 now) := by
  intro so
  rw [X402.verifyPayment_ok_true store id tx v a r so now p hg hv]
  refine ⟨rfl, X402.mapGet_mapDelete_self store id, ?_⟩
  intro so2
  rw [X402.verifyPayment_ok_true store id tx v a r so2 now p hg hv]

/-- C4 witness: settlement transport fault does not revert verification. -/
theorem C4_settlement_best_effort_witness :
    (X402.mapGet sampleStore "p1" = some samplePayment ∧
      (some true : Option Bool).getD false = true) ∧
    ∀ so : X402.SettleFetchOutcome,
      ((X402.verifyPayment sampleStore "p1" "0xtx"
          (.ok (some true) none none) so
          50).verification.verified = true) ∧
      (X402.mapGet (X402.verifyPayment sampleStore "p1" "0xtx"
          (.ok (some true) none none) so 50).store "p1" = none) ∧
      (∀ so2, X402.verifyPayment sampleStore "p1" "0xtx"
          (.ok (some true) none none) so 50 =
        X402.verifyPayment sampleStore "p1" "0xtx"
          (.ok (some true) none none) so2 50) :=
  ⟨⟨by decide, by decide⟩,
   fun so => C4_settlement_best_effort sampleStore "p1" "0xtx"
     (some true) none none 50 samplePayment (by decide) (by decide) so⟩

/-- C5: `verifyPayment` is total for the caller.  On an unknown or
already-consumed id, and on any transport failure or non-ok response from
the facilitator, it returns the structured unverified fallback record and
leaves the store untouched, instead of raising a fault (the embedding is a
total function: every fault of the source body is caught and mapped to
this fallback). -/
theorem C5_verify_total_structured (store : X402.PendingMap)
    (id tx : String) (fo : X402.VerifyFetchOutcome)
    (so : X402.SettleFetchOutcome) (now : Nat)
    (h : X402.mapGet store id = none ∨
      (∃ msg, fo = X402.VerifyFetchOutcome.transportError msg) ∨
      (∃ st, fo = X402.VerifyFetchOutcome.httpError st)) :
    (X402.verifyPayment store id tx fo so now).verification =
      ⟨id, tx, false, "0", now⟩ ∧
    (X402.verifyPayment store id tx fo so now).store = store := by
  rcases h with hnone | ⟨msg, rfl⟩ | ⟨st, rfl⟩
  · rw [X402.verifyPayment_not_found store id tx fo so now hnone]
    exact ⟨rfl, rfl⟩
  · rcases hg : X402.mapGet store id with _ | p
    · rw [X402.verifyPayment_not_found store id tx _ so now hg]
      exact ⟨rfl, rfl⟩
    · rw [X402.verifyPayment_transport_error store id tx msg so now p hg]
      exact ⟨rfl, rfl⟩
  · rcases hg : X402.mapGet store id with _ | p
    · rw [X402.verifyPayment_not_found store id tx _ so now hg]
      exact ⟨rfl, rfl⟩
    · rw [X402.verifyPayment_http_error store id tx st so now p hg]
      exact ⟨rfl, rfl⟩

/-- C5 witness: unknown id on the empty store yields the fallback. -/
theorem C5_verify_total_structured_witness :
    (X402.mapGet [] "ghost" = none ∨
      (∃ msg, X402.VerifyFetchOutcome.ok (some true) none none =
        X402.VerifyFetchOutcome.transportError msg) ∨
      (∃ st, X402.VerifyFetchOutcome.ok (some true) none none =
        X402.VerifyFetchOutcome.httpError st)) ∧
    ((X402.verifyPayment [] "ghost" "0xtx" (.ok (some true) none none)
        X402.SettleFetchOutcome.ok 9).verification =
      ⟨"ghost", "0xtx", false, "0", 9⟩ ∧
    (X402.verifyPayment [] "ghost" "0xtx" (.ok (some true) none none)
        X402.SettleFetchOutcome.ok 9).store = []) :=
  ⟨Or.inl (by decide),
   C5_verify_total_structured [] "ghost" "0xtx" (.ok (some true) none none)
     X402.SettleFetchOutcome.ok 9 (Or.inl (by decide))⟩

/-- C6: failed verification leaves state unchanged.  For a stored session,
if the facilitator does not report verified (rejection, non-ok response or
transport fault), the store after the call is exactly the store before it:
the session is still pending and the stored challenge is unmodified, so
the caller can retry. -/
theorem C6_failed_verification_frame (store : X402.PendingMap)
    (id tx : String) (fo : X402.VerifyFetchOutcome)
    (so : X402.SettleFetchOutcome) (now : Nat)
    (p : X402.X402PaymentResponse)
    (hg : X402.mapGet store id = some p)
    (hv : X402.reportsVerified fo = false) :
    (X402.verifyPayment store id tx fo so now).store = store ∧
    X402.isPaymentPending
      (X402.verifyPayment store id tx fo so now).store id = true ∧
    X402.getPendingPayment
      (X402.verifyPayment store id tx fo so now).store id = some p := by
  have hpend : X402.isPaymentPending store id = true := by
    simp [X402.isPaymentPending, X402.mapHas, hg]
  cases fo with
  | transportError msg =>
    rw [X402.verifyPayment_transport_error store id tx msg so now p hg]
    exact ⟨rfl, hpend, hg⟩
  | httpError st =>
    rw [X402.verifyPayment_http_error store id tx st so now p hg]
    exact ⟨rfl, hpend, hg⟩
  | ok v a r =>
    rw [X402.verifyPayment_ok_false store id tx v a r so now p hg
      (by simpa [X402.reportsVerified] using hv)]
    exact ⟨rfl, hpend, hg⟩

/-- C6 witness: a facilitator rejection leaves the concrete session in
place. -/
theorem C6_failed_verification_frame_witness :
    (X402.mapGet sampleStore "p1" = some samplePayment ∧
      X402.reportsVerified (.ok (some false) none (some "bad tx"))
        = false) ∧
    ((X402.verifyPayment sampleStore "p1" "0xtx"
        (.ok (some false) none (some "bad tx"))
        X402.SettleFetchOutcome.ok 50).store = sampleStore ∧
    X402.isPaymentPending (X402.verifyPayment sampleStore "p1" "0xtx"
        (.ok (some false) none (some "bad tx"))
        X402.SettleFetchOutcome.ok 50).store "p1" = true ∧
    X402.getPendingPayment (X402.verifyPayment sampleStore "p1" "0xtx"
        (.ok (some false) none (some "bad tx"))
        X402.SettleFetchOutcome.ok 50).store "p1" = some samplePayment) :=
  ⟨⟨by decide, by decide⟩,
   C6_failed_verification_frame sampleStore "p1" "0xtx"
     (.ok (some false) none (some "bad tx")) X402.SettleFetchOutcome.ok 50
     samplePayment (by decide) (by decide)⟩

/-- C7: the expiry sweep removes exactly the sessions whose deadline has
passed at the time of the call (an entry survives iff it was stored and
its deadline has not passed), keeps the surviving entries in place (the
result is a sublist of the store, so non-expired sessions are untouched),
and running it twice with the same clock reading equals running it
once. -/
theorem C7_expire_sweep_exact_idempotent (store : X402.PendingMap)
    (now : Nat) :
    (∀ e : String × X402.X402PaymentResponse,
      e ∈ X402.cleanupExpiredPayments store now ↔
        e ∈ store ∧ ¬ e.2.deadline < now) ∧
    (X402.cleanupExpiredPayments store now).Sublist store ∧
    X402.cleanupExpiredPayments (X402.cleanupExpiredPayments store now)
        now =
      X402.cleanupExpiredPayments store now := by
  refine ⟨?_, ?_, ?_⟩
  · intro e
    simp [X402.cleanupExpiredPayments, List.mem_filter]
  · exact List.filter_sublist store
  · simp [X402.cleanupExpiredPayments, List.filter_filter]

/-- C7 witness: a two-session store, one expired entry, at clock 150. -/
theorem C7_expire_sweep_witness :
    (∀ e : String × X402.X402PaymentResponse,
      e ∈ X402.cleanupExpiredPayments
        [("p1", samplePayment),
         ("p2", ⟨"p2", "500000", "USDC", "0xrecipient", 400, "n2"⟩)] 150 ↔
        e ∈ [("p1", samplePayment),
         ("p2", ⟨"p2", "500000", "USDC", "0xrecipient", 400, "n2"⟩)] ∧
          ¬ e.2.deadline < 150) ∧
    (X402.cleanupExpiredPayments
        [("p1", samplePayment),
         ("p2", ⟨"p2", "500000", "USDC", "0xrecipient", 400, "n2"⟩)]
        150).Sublist
      [("p1", samplePayment),
       ("p2", ⟨"p2", "500000", "USDC", "0xrecipient", 400, "n2"⟩)] ∧
    X402.cleanupExpiredPayments (X402.cleanupExpiredPayments
        [("p1", samplePayment),
         ("p2", ⟨"p2", "500000", "USDC", "0xrecipient", 400, "n2"⟩)]
        150) 150 =
      X402.cleanupExpiredPayments
        [("p1", samplePayment),
         ("p2", ⟨"p2", "500000", "USDC", "0xrecipient", 400, "n2"⟩)]
        150 :=
  C7_expire_sweep_exact_idempotent
    [("p1", samplePayment),
     ("p2", ⟨"p2", "500000", "USDC", "0xrecipient", 400, "n2"⟩)] 150

/-- C8: for every scenario key, when the generated payment id is fresh
(absent from the store), `create402Response` returns a status-402 envelope
whose headers and body carry the payment metadata, the challenge has
`deadline = now + 3600`, and the session store grows by exactly the one
entry keyed by the new id, all other keys unchanged. -/
theorem C8_issue_challenge (store : X402.PendingMap)
    (facUrl recip : String) (scenario : X402.Scenario)
    (uuid nonce : String) (now : Nat)
    (hfresh : X402.mapGet store uuid = none) :
    X402.create402Response store facUrl recip scenario uuid nonce now =
      (⟨402,
        ⟨"application/json", "x402",
         (X402.X402_PAYMENT_SCENARIOS scenario).amount,
         (X402.X402_PAYMENT_SCENARIOS scenario).currency, recip, uuid⟩,
        ⟨"Payment Required", 402,
         (X402.X402_PAYMENT_SCENARIOS scenario).description,
         ⟨uuid, (X402.X402_PAYMENT_SCENARIOS scenario).amount,
          (X402.X402_PAYMENT_SCENARIOS scenario).currency, recip,
          now + 3600,
          (X402.X402_PAYMENT_SCENARIOS scenario).description, facUrl⟩⟩⟩,
       store ++
         [(uuid, ⟨uuid, (X402.X402_PAYMENT_SCENARIOS scenario).amount,
            (X402.X402_PAYMENT_SCENARIOS scenario).currency, recip,
            now + 3600, nonce⟩)]) ∧
    X402.mapGet
      (X402.create402Response store facUrl recip scenario uuid nonce
        now).2 uuid =
      some ⟨uuid, (X402.X402_PAYMENT_SCENARIOS scenario).amount,
        (X402.X402_PAYMENT_SCENARIOS scenario).currency, recip,
        now + 3600, nonce⟩ ∧
    ∀ k, k ≠ uuid →
      X402.mapGet
        (X402.create402Response store facUrl recip scenario uuid nonce
          now).2 k = X402.mapGet store k := by
  have hset := X402.mapSet_of_not_has store uuid
    ⟨uuid, (X402.X402_PAYMENT_SCENARIOS scenario).amount,
     (X402.X402_PAYMENT_SCENARIOS scenario).currency, recip,
     now + 3600, nonce⟩
    (by simp [X402.mapHas, hfresh])
  refine ⟨?_, ?_, ?_⟩
  · simp only [X402.create402Response, X402.generatePaymentRequest]
    rw [hset]
  · simp only [X402.create402Response, X402.generatePaymentRequest]
    rw [hset]
    exact X402.mapGet_append_single_self store uuid _ hfresh
  · intro k hk
    simp only [X402.create402Response, X402.generatePaymentRequest]
    rw [hset]
    exact X402.mapGet_append_single_ne store uuid k _ hk

/-- C8 witness: issuing a DISPUTE_BOND challenge on the empty store. -/
theorem C8_issue_challenge_witness :
    X402.mapGet [] "u1" = none ∧
    (X402.create402Response [] "https://fac" "0xplat"
        X402.Scenario.DISPUTE_BOND "u1" "n9" 1000 =
      (⟨402,
        ⟨"application/json", "x402", "10000000", "USDC", "0xplat", "u1"⟩,
        ⟨"Payment Required", 402, "Dispute Resolution Bond",
         ⟨"u1", "10000000", "USDC", "0xplat", 4600,
          "Dispute Resolution Bond", "https://fac"⟩⟩⟩,
       [("u1", ⟨"u1", "10000000", "USDC", "0xplat", 4600, "n9"⟩)]) ∧
    X402.mapGet (X402.create402Response [] "https://fac" "0xplat"
        X402.Scenario.DISPUTE_BOND "u1" "n9" 1000).2 "u1" =
      some ⟨"u1", "10000000", "USDC", "0xplat", 4600, "n9"⟩ ∧
    ∀ k, k ≠ "u1" →
      X402.mapGet (X402.create402Response [] "https://fac" "0xplat"
          X402.Scenario.DISPUTE_BOND "u1" "n9" 1000).2 k =
        X402.mapGet [] k) := by
  constructor
  · rfl
  · have h := C8_issue_challenge [] "https://fac" "0xplat"
      X402.Scenario.DISPUTE_BOND "u1" "n9" 1000 rfl
    simpa [X402.X402_PAYMENT_SCENARIOS] using h

/-- C10: `verifyPayment` never consults the challenge deadline.  For a
stored session whose deadline has already passed but which the sweep has
not yet removed, the verification request is still sent to the
facilitator, a facilitator `verified = true` still redeems and settles the
expired challenge, and the returned verification together with the event
trace coincide with those of any live session that agrees on amount,
recipient and currency. -/
theorem C10_expiry_not_checked_at_verify (store : X402.PendingMap)
    (id tx : String) (so : X402.SettleFetchOutcome) (now : Nat)
    (p : X402.X402PaymentResponse)
    (hg : X402.mapGet store id = some p)
    (_hexp : p.deadline < now) :
    (∀ fo so2, (X402.verifyPayment store id tx fo so2 now).events.head? =
      some (X402.X402Event.verifyRequested id tx p.amount p.recipient
        p.currency)) ∧
    (∀ a r, X402.verifyPayment store id tx (.ok (some true) a r) so now =
      ⟨⟨id, tx, true, X402.jsOrString a p.amount, now⟩,
       X402.mapDelete store id,
       [X402.X402Event.verifyRequested id tx p.amount p.recipient
          p.currency,
        X402.X402Event.sessionRemoved id,
        X402.X402Event.settleRequested id tx]⟩) ∧
    (∀ store2 q, X402.mapGet store2 id = some q →
      q.amount = p.amount → q.recipient = p.recipient →
      q.currency = p.currency →
      ∀ fo so2,
        (X402.verifyPayment store2 id tx fo so2 now).verification =
          (X402.verifyPayment store id tx fo so2 now).verification ∧
        (X402.verifyPayment store2 id tx fo so2 now).events =
          (X402.verifyPayment store id tx fo so2 now).events) := by
  refine ⟨?_, ?_, ?_⟩
  · intro fo so2
    cases fo with
    | transportError msg =>
      rw [X402.verifyPayment_transport_error store id tx msg so2 now p hg]
      rfl
    | httpError st =>
      rw [X402.verifyPayment_http_error store id tx st so2 now p hg]
      rfl
    | ok v a r =>
      by_cases hv : v.getD false = true
      · rw [X402.verifyPayment_ok_true store id tx v a r so2 now p hg hv]
        rfl
      · rw [X402.verifyPayment_ok_false store id tx v a r so2 now p hg
          (by simpa using hv)]
        rfl
  · intro a r
    exact X402.verifyPayment_ok_true store id tx (some true) a r so now p
      hg rfl
  · intro store2 q hq hamt hrec hcur fo so2
    cases fo with
    | transportError msg =>
      rw [X402.verifyPayment_transport_error store id tx msg so2 now p hg,
        X402.verifyPayment_transport_error store2 id tx msg so2 now q hq,
        hamt, hrec, hcur]
      exact ⟨rfl, rfl⟩
    | httpError st =>
      rw [X402.verifyPayment_http_error store id tx st so2 now p hg,
        X402.verifyPayment_http_error store2 id tx st so2 now q hq,
        hamt, hrec, hcur]
      exact ⟨rfl, rfl⟩
    | ok v a r =>
      by_cases hv : v.getD false = true
      · rw [X402.verifyPayment_ok_true store id tx v a r so2 now p hg hv,
          X402.verifyPayment_ok_true store2 id tx v a r so2 now q hq hv,
          hamt, hrec, hcur]
        exact ⟨rfl, rfl⟩
      · rw [X402.verifyPayment_ok_false store id tx v a r so2 now p hg
            (by simpa using hv),
          X402.verifyPayment_ok_false store2 id tx v a r so2 now q hq
            (by simpa using hv),
          hamt, hrec, hcur]
        exact ⟨rfl, rfl⟩

/-- C10 witness: a session expired at clock 500 (deadline 100) is still
fully redeemed by a verified facilitator response. -/
theorem C10_expiry_not_checked_witness :
    (X402.mapGet sampleStore "p1" = some samplePayment ∧
      samplePayment.deadline < 500) ∧
    ((∀ fo so2,
      (X402.verifyPayment sampleStore "p1" "0xtx" fo so2
        500).events.head? =
      some (X402.X402Event.verifyRequested "p1" "0xtx"
        samplePayment.amount samplePayment.recipient
        samplePayment.currency)) ∧
    (∀ a r, X402.verifyPayment sampleStore "p1" "0xtx"
        (.ok (some true) a r) X402.SettleFetchOutcome.ok 500 =
      ⟨⟨"p1", "0xtx", true, X402.jsOrString a samplePayment.amount, 500⟩,
       X402.mapDelete sampleStore "p1",
       [X402.X402Event.verifyRequested "p1" "0xtx" samplePayment.amount
          samplePayment.recipient samplePayment.currency,
        X402.X402Event.sessionRemoved "p1",
        X402.X402Event.settleRequested "p1" "0xtx"]⟩) ∧
    (∀ store2 q, X402.mapGet store2 "p1" = some q →
      q.amount = samplePayment.amount →
      q.recipient = samplePayment.recipient →
      q.currency = samplePayment.currency →
      ∀ fo so2,
        (X402.verifyPayment store2 "p1" "0xtx" fo so2
            500).verification =
          (X402.verifyPayment sampleStore "p1" "0xtx" fo so2
            500).verification ∧
        (X402.verifyPayment store2 "p1" "0xtx" fo so2 500).events =
          (X402.verifyPayment sampleStore "p1" "0xtx" fo so2
            500).events)) :=
  ⟨⟨by decide, by decide⟩,
   C10_expiry_not_checked_at_verify sampleStore "p1" "0xtx"
     X402.SettleFetchOutcome.ok 500 samplePayment (by decide)
     (by decide)⟩

/-- C2 counterexample: `waitForUserOperation` called on an operation whose
provider call never settles produces no result at all — in particular it
does not return a failed result with a timeout reason after any bound,
because the source passes no timeout and has no timeout logic. -/
theorem C2_no_timeout_counterexample :
    SmartWallet.waitForUserOperation "0xop"
      SmartWallet.ProviderWaitOutcome.neverResolves = none := rfl

/-- C2 amended: `waitForUserOperation` does not bound its polling duration
itself; it returns a result exactly when the single provider call
settles.  Any provider rejection (which is where a provider-side timeout
would surface) is caught and converted to a failed result carrying the
error, and a non-complete resolution becomes a failed result, but a
provider call that never settles makes the method never return. -/
theorem C2_wait_returns_iff_provider_settles (h : String)
    (o : SmartWallet.ProviderWaitOutcome) :
    (SmartWallet.waitForUserOperation h o = none ↔
      o = SmartWallet.ProviderWaitOutcome.neverResolves) ∧
    (∀ e, SmartWallet.waitForUserOperation h (.throws e) =
      some ⟨h, none, SmartWallet.OpStatus.failed, none, some e⟩) ∧
    (∀ st tx rc, st ≠ "complete" →
      SmartWallet.waitForUserOperation h (.resolves st tx rc) =
        some ⟨h, none, SmartWallet.OpStatus.failed, none,
          some "Transaction failed"⟩) ∧
    (∀ tx rc, SmartWallet.waitForUserOperation h (.resolves "complete" tx
        rc) = some ⟨h, tx, SmartWallet.OpStatus.complete, rc, none⟩) := by
  refine ⟨?_, fun e => rfl, ?_, fun tx rc => rfl⟩
  · constructor
    · intro hnone
      cases o with
      | resolves st tx rc =>
        by_cases hst : st = "complete" <;>
          simp [SmartWallet.waitForUserOperation, hst] at hnone
      | throws e => simp [SmartWallet.waitForUserOperation] at hnone
      | neverResolves => rfl
    · rintro rfl
      rfl
  · intro st tx rc hst
    simp [SmartWallet.waitForUserOperation, hst]

/-- C2 amended witness: concrete instantiation at a thrown provider
error. -/
theorem C2_wait_returns_iff_provider_settles_witness :
    (SmartWallet.waitForUserOperation "0xop"
        (.throws "deadline exceeded") = none ↔
      SmartWallet.ProviderWaitOutcome.throws "deadline exceeded" =
        SmartWallet.ProviderWaitOutcome.neverResolves) ∧
    (∀ e, SmartWallet.waitForUserOperation "0xop" (.throws e) =
      some ⟨"0xop", none, SmartWallet.OpStatus.failed, none, some e⟩) ∧
    (∀ st tx rc, st ≠ "complete" →
      SmartWallet.waitForUserOperation "0xop" (.resolves st tx rc) =
        some ⟨"0xop", none, SmartWallet.OpStatus.failed, none,
          some "Transaction failed"⟩) ∧
    (∀ tx rc, SmartWallet.waitForUserOperation "0xop"
        (.resolves "complete" tx rc) =
      some ⟨"0xop", tx, SmartWallet.OpStatus.complete, rc, none⟩) :=
  C2_wait_returns_iff_provider_settles "0xop"
    (.throws "deadline exceeded")

namespace SmartWallet

end SmartWallet

namespace Viem

theorem valBE_nil : valBE [] = 0 := rfl

theorem valBE_singleton (x : Nat) : valBE [x] = x := by
  simp [valBE]

/-- Folding the digit step from an arbitrary accumulator. -/
theorem valBE_foldl_from (l : List Nat) :
    ∀ acc : Nat, l.foldl (fun a d => a * 10 + d) acc =
      acc * 10 ^ l.length + valBE l := by
  induction l with
  | nil => intro acc; simp [valBE]
  | cons d t ih =>
    intro acc
    have hv : valBE (d :: t) = d * 10 ^ t.length + valBE t := by
      simpa [valBE] using ih d
    simp only [List.foldl_cons, List.length_cons]
    rw [ih (acc * 10 + d), hv]
    ring

/-- Value of a concatenation of digit strings. -/
theorem valBE_append (a b : List Nat) :
    valBE (a ++ b) = valBE a * 10 ^ b.length + valBE b := by
  simp only [valBE, List.foldl_append]
  exact valBE_foldl_from b (valBE a)

theorem valBE_replicate_zero (m : Nat) :
    valBE (List.replicate m 0) = 0 := by
  induction m with
  | zero => rfl
  | succ k ih =>
    simpa [valBE, List.replicate_succ, List.foldl_cons] using ih

/-- Big-endian value agrees with `Nat.ofDigits` on the reversal. -/
theorem valBE_reverse_ofDigits (M : List Nat) :
    valBE M.reverse = Nat.ofDigits 10 M := by
  induction M with
  | nil => rfl
  | cons x t ih =>
    rw [List.reverse_cons, valBE_append, ih, valBE_singleton,
      Nat.ofDigits_cons, List.length_singleton, pow_one]
    ring

theorem valBE_eq_ofDigits_reverse (P : List Nat) :
    valBE P = Nat.ofDigits 10 P.reverse := by
  have h := valBE_reverse_ofDigits P.reverse
  simpa using h

theorem valBE_digitsBE (n : Nat) : valBE (digitsBE n) = n := by
  rw [digitsBE, valBE_reverse_ofDigits, Nat.ofDigits_digits]

/-- A digit string of length `k` denotes a value below `10 ^ k`. -/
theorem valBE_lt_pow (P : List Nat) (hd : ∀ x ∈ P, x < 10) :
    valBE P < 10 ^ P.length := by
  rw [valBE_eq_ofDigits_reverse]
  have := Nat.ofDigits_lt_base_pow_length (b := 10) (l := P.reverse)
    (by norm_num) (fun x hx => hd x (List.mem_reverse.mp hx))
  simpa using this

/-- A value below `10 ^ k` has at most `k` digits. -/
theorem digits_len_le_of_lt_pow {n k : Nat} (h : n < 10 ^ k) :
    (Nat.digits 10 n).length ≤ k := by
  induction k generalizing n with
  | zero =>
    have hn : n = 0 := by omega
    simp [hn]
  | succ k ih =>
    rcases Nat.eq_zero_or_pos n with rfl | hn
    · simp
    · rw [Nat.digits_def' (by norm_num : (1:Nat) < 10) hn]
      have hdiv : n / 10 < 10 ^ k := by
        have := (Nat.div_lt_iff_lt_mul (by norm_num : 0 < 10)).mpr
          (by rw [pow_succ] at h; exact h)
        exact this
      simpa using Nat.succ_le_succ (ih hdiv)

/-- Little-endian completeness: a digit string is its value's digits plus
high-order zero padding. -/
theorem digits_ofDigits_padding (M : List Nat)
    (hd : ∀ x ∈ M, x < 10) :
    Nat.digits 10 (Nat.ofDigits 10 M) ++
      List.replicate
        (M.length - (Nat.digits 10 (Nat.ofDigits 10 M)).length) 0 = M := by
  induction M with
  | nil => simp
  | cons x t ih =>
    have hx : x < 10 := hd x (List.mem_cons_self x t)
    have hdt : ∀ y ∈ t, y < 10 := fun y hy => hd y (List.mem_cons_of_mem x hy)
    have iht := ih hdt
    have hofc : Nat.ofDigits 10 (x :: t) = x + 10 * Nat.ofDigits 10 t :=
      Nat.ofDigits_cons
    by_cases hz : x + 10 * Nat.ofDigits 10 t = 0
    · have hx0 : x = 0 := by omega
      have hv0 : Nat.ofDigits 10 t = 0 := by omega
      have ht : t = List.replicate t.length 0 := by
        have := iht
        rw [hv0] at this
        simpa using this.symm
      rw [hofc, hz]
      simp only [Nat.digits_zero, List.nil_append, List.length_cons,
        List.length_nil, Nat.sub_zero]
      rw [hx0, List.replicate_succ]
      exact congrArg (0 :: ·) ht.symm
    · have hpos : 0 < x + 10 * Nat.ofDigits 10 t := Nat.pos_of_ne_zero hz
      have hmod : (x + 10 * Nat.ofDigits 10 t) % 10 = x := by
        omega
      have hdivq : (x + 10 * Nat.ofDigits 10 t) / 10 =
          Nat.ofDigits 10 t := by
        omega
      rw [hofc, Nat.digits_def' (by norm_num : (1:Nat) < 10) hpos, hmod,
        hdivq]
      simp only [List.length_cons, List.cons_append]
      have hlen : t.length + 1 -
          ((Nat.digits 10 (Nat.ofDigits 10 t)).length + 1) =
          t.length - (Nat.digits 10 (Nat.ofDigits 10 t)).length := by
        omega
      rw [hlen]
      exact congrArg (x :: ·) iht

/-- Big-endian form: padding a value's digits to the width of any digit
string denoting it recovers that string. -/
theorem padStart_digitsBE_valBE (P : List Nat)
    (hd : ∀ x ∈ P, x < 10) :
    padStartZeros P.length (digitsBE (valBE P)) = P := by
  have hdrev : ∀ x ∈ P.reverse, x < 10 :=
    fun x hx => hd x (List.mem_reverse.mp hx)
  have h := digits_ofDigits_padding P.reverse hdrev
  have h2 := congrArg List.reverse h
  rw [List.reverse_append, List.reverse_replicate, List.reverse_reverse,
    List.length_reverse] at h2
  rw [padStartZeros, digitsBE, valBE_eq_ofDigits_reverse,
    List.length_reverse]
  exact h2

/-- Little-endian: appending a nonzero high part above `k` digits. -/
theorem digits_ofDigits_add_mul_pow (M : List Nat)
    (hd : ∀ x ∈ M, x < 10) (i : Nat) (hi : i ≠ 0) :
    Nat.digits 10 (Nat.ofDigits 10 M + i * 10 ^ M.length) =
      M ++ Nat.digits 10 i := by
  induction M with
  | nil => simp
  | cons x t ih =>
    have hx : x < 10 := hd x (List.mem_cons_self x t)
    have hdt : ∀ y ∈ t, y < 10 := fun y hy => hd y (List.mem_cons_of_mem x hy)
    have hofc : Nat.ofDigits 10 (x :: t) = x + 10 * Nat.ofDigits 10 t :=
      Nat.ofDigits_cons
    have hinner : 0 < Nat.ofDigits 10 t + i * 10 ^ t.length := by
      have h1 : 0 < i := Nat.pos_of_ne_zero hi
      have h2 : 0 < 10 ^ t.length := pow_pos (by norm_num) t.length
      have h3 := Nat.mul_pos h1 h2
      omega
    have hsum : Nat.ofDigits 10 (x :: t) + i * 10 ^ (x :: t).length =
        x + 10 * (Nat.ofDigits 10 t + i * 10 ^ t.length) := by
      rw [hofc, List.length_cons, pow_succ]
      ring
    have hpos : 0 < Nat.ofDigits 10 (x :: t) + i * 10 ^ (x :: t).length := by
      rw [hsum]; omega
    rw [hsum, Nat.digits_def' (by norm_num : (1:Nat) < 10) (by omega : 0 < x + 10 * (Nat.ofDigits 10 t + i * 10 ^ t.length))]
    have hmod : (x + 10 * (Nat.ofDigits 10 t + i * 10 ^ t.length)) % 10 = x := by
      omega
    have hdivq : (x + 10 * (Nat.ofDigits 10 t + i * 10 ^ t.length)) / 10 =
        Nat.ofDigits 10 t + i * 10 ^ t.length := by
      omega
    rw [hmod, hdivq, ih hdt]
    rfl

/-- Big-endian combination: the digits of `i * 10 ^ |P| + valBE P` are the
digits of `i` followed by `P`, for nonzero `i`. -/
theorem digitsBE_combined (P : List Nat) (hd : ∀ x ∈ P, x < 10)
    (i : Nat) (hi : i ≠ 0) :
    digitsBE (i * 10 ^ P.length + valBE P) = digitsBE i ++ P := by
  have hdrev : ∀ x ∈ P.reverse, x < 10 :=
    fun x hx => hd x (List.mem_reverse.mp hx)
  have h := digits_ofDigits_add_mul_pow P.reverse hdrev i hi
  rw [digitsBE, valBE_eq_ofDigits_reverse]
  rw [List.length_reverse] at h
  rw [Nat.add_comm, h, List.reverse_append, List.reverse_reverse]
  rfl

/-- Stripping ignores appended zeros. -/
theorem stripTrailingZeros_append_replicate (X : List Nat) (m : Nat) :
    stripTrailingZeros (X ++ List.replicate m 0) =
      stripTrailingZeros X := by
  rw [stripTrailingZeros, stripTrailingZeros, List.reverse_append,
    List.reverse_replicate]
  congr 1
  induction m with
  | zero => rfl
  | succ k ih => simp [List.replicate_succ, List.dropWhile_cons, ih]

/-- A string not ending in zero is unchanged by stripping. -/
theorem stripTrailingZeros_of_getLast_ne_zero (l : List Nat)
    (h : l.getLast? ≠ some 0) : stripTrailingZeros l = l := by
  rw [stripTrailingZeros]
  cases hrev : l.reverse with
  | nil =>
    have : l = [] := by simpa using congrArg List.reverse hrev
    simp [this, hrev]
  | cons a t =>
    have ha : l.getLast? = some a := by
      rw [← List.head?_reverse, hrev]
      rfl
    have ha0 : a ≠ 0 := fun h0 => h (h0 ▸ ha)
    rw [List.dropWhile_cons]
    simp only [beq_iff_eq, ha0, if_false]
    rw [← hrev, List.reverse_reverse]

theorem stripTrailingZeros_replicate_zero (m : Nat) :
    stripTrailingZeros (List.replicate m 0) = [] := by
  have h := stripTrailingZeros_append_replicate [] m
  simpa using h

/-- A nonempty digit string with nonzero last digit has positive value. -/
theorem valBE_pos_of_canonical (F : List Nat) (hne : F ≠ [])
    (hlast : F.getLast? ≠ some 0) : 0 < valBE F := by
  have hdec := List.dropLast_append_getLast hne
  have hval := valBE_append F.dropLast [F.getLast hne]
  rw [hdec] at hval
  have hlastne : F.getLast hne ≠ 0 := by
    intro h0
    exact hlast (by rw [List.getLast?_eq_getLast F hne, h0])
  rw [hval, valBE_singleton]
  omega

end Viem

namespace Viem

/-- Unfolding equation of `formatUnits`. -/
theorem formatUnits_def (value : Int) (d : Nat) :
    formatUnits value d =
      ⟨decide (value < 0),
       valBE ((padStartZeros d (digitsBE value.natAbs)).take
         ((padStartZeros d (digitsBE value.natAbs)).length - d)),
       stripTrailingZeros ((padStartZeros d (digitsBE value.natAbs)).drop
         ((padStartZeros d (digitsBE value.natAbs)).length - d))⟩ := rfl

/-- Decoding a magnitude of the shape produced by `parseUnits` recovers
the integer part and the canonical fraction digits. -/
theorem formatUnits_natAbs_eval (i : Nat) (F : List Nat) (m d : Nat)
    (hdig : ∀ x ∈ F, x < 10) (hcanon : F.getLast? ≠ some 0)
    (hmd : F.length + m = d) (value : Int)
    (habs : value.natAbs = i * 10 ^ d + valBE (F ++ List.replicate m 0)) :
    formatUnits value d = ⟨decide (value < 0), i, F⟩ := by
  have hPlen : (F ++ List.replicate m 0).length = d := by
    simp only [List.length_append, List.length_replicate]
    omega
  have hPdig : ∀ x ∈ F ++ List.replicate m 0, x < 10 := by
    intro x hx
    rcases List.mem_append.mp hx with h1 | h2
    · exact hdig x h1
    · have h0 := List.eq_of_mem_replicate h2
      omega
  have hstripP : stripTrailingZeros (F ++ List.replicate m 0) = F := by
    rw [stripTrailingZeros_append_replicate]
    exact stripTrailingZeros_of_getLast_ne_zero F hcanon
  rw [formatUnits_def, habs]
  by_cases ci : i = 0
  · subst ci
    rw [Nat.zero_mul, Nat.zero_add]
    have hpad : padStartZeros d
        (digitsBE (valBE (F ++ List.replicate m 0))) =
        F ++ List.replicate m 0 := by
      conv_lhs => rw [← hPlen]
      exact padStart_digitsBE_valBE _ hPdig
    rw [hpad, hPlen, Nat.sub_self]
    rw [List.take_zero, List.drop_zero, hstripP]
    rfl
  · have hcomb : digitsBE (i * 10 ^ d +
        valBE (F ++ List.replicate m 0)) =
        digitsBE i ++ (F ++ List.replicate m 0) := by
      conv_lhs => rw [← hPlen]
      exact digitsBE_combined _ hPdig i ci
    rw [hcomb]
    have hlen2 : (digitsBE i ++ (F ++ List.replicate m 0)).length =
        (digitsBE i).length + d := by
      simp only [List.length_append, List.length_replicate]
      omega
    have hpad2 : padStartZeros d
        (digitsBE i ++ (F ++ List.replicate m 0)) =
        digitsBE i ++ (F ++ List.replicate m 0) := by
      rw [padStartZeros, hlen2]
      have hz : d - ((digitsBE i).length + d) = 0 := by omega
      rw [hz]
      rfl
    rw [hpad2, hlen2]
    have hsub : (digitsBE i).length + d - d = (digitsBE i).length := by
      omega
    rw [hsub, List.take_left, List.drop_left, hstripP, valBE_digitsBE]

end Viem

/-- C9: decimal round-trip.  Every well-formed decimal amount (digits
below ten, no trailing fractional zeros, nonzero magnitude when negative)
with at most `d` fractional digits encodes through `parseUnits` at
precision `d` — as `transferTokens` does — to raw units that decode back
through `formatUnits` at the same precision — as `getTokenBalance` does —
to exactly the original human-entered amount. -/
theorem C9_decimal_roundtrip (v : Viem.DecimalAmount) (d : Nat)
    (hdig : ∀ x ∈ v.fraction, x < 10)
    (hcanon : v.fraction.getLast? ≠ some 0)
    (hlen : v.fraction.length ≤ d)
    (hneg : v.negative = true → ¬(v.integer = 0 ∧ v.fraction = [])) :
    ∃ raw : Int, Viem.parseUnits v d = some raw ∧
      Viem.formatUnits raw d = v := by
  obtain ⟨neg, i, F⟩ := v
  dsimp only at hdig hcanon hlen hneg
  have hstrip : Viem.stripTrailingZeros F = F :=
    Viem.stripTrailingZeros_of_getLast_ne_zero F hcanon
  have hmd : F.length + (d - F.length) = d := by omega
  set mag : Nat :=
    i * 10 ^ d + Viem.valBE (F ++ List.replicate (d - F.length) 0)
    with hmagdef
  have hparse : Viem.parseUnits ⟨neg, i, F⟩ d =
      some (if neg then -(mag : Int) else (mag : Int)) := by
    simp only [Viem.parseUnits, hstrip]
    rw [if_neg (by omega : ¬ F.length > d)]
  cases neg with
  | false =>
    refine ⟨_, hparse, ?_⟩
    show Viem.formatUnits (mag : Int) d = ⟨false, i, F⟩
    have h := Viem.formatUnits_natAbs_eval i F (d - F.length) d hdig
      hcanon hmd (mag : Int) (by rw [← hmagdef]; simp)
    rw [h]
    have hnn : ¬ ((mag : Int) < 0) := not_lt.mpr (Int.natCast_nonneg mag)
    simp [hnn]
  | true =>
    refine ⟨_, hparse, ?_⟩
    show Viem.formatUnits (-(mag : Int)) d = ⟨true, i, F⟩
    have hmagpos : 0 < mag := by
      rcases not_and_or.mp (hneg rfl) with hi | hF
      · have h1 : 0 < i := Nat.pos_of_ne_zero hi
        have h2 : 0 < i * 10 ^ d :=
          Nat.mul_pos h1 (pow_pos (by norm_num) d)
        omega
      · have hFpos := Viem.valBE_pos_of_canonical F hF hcanon
        have hsplit : Viem.valBE (F ++ List.replicate (d - F.length) 0) =
            Viem.valBE F * 10 ^ (d - F.length) := by
          rw [Viem.valBE_append, Viem.valBE_replicate_zero,
            List.length_replicate, Nat.add_zero]
        have h3 : 0 < Viem.valBE F * 10 ^ (d - F.length) :=
          Nat.mul_pos hFpos (pow_pos (by norm_num) _)
        omega
    have h := Viem.formatUnits_natAbs_eval i F (d - F.length) d hdig
      hcanon hmd (-(mag : Int)) (by rw [← hmagdef]; simp)
    rw [h]
    have hlt : (-(mag : Int)) < 0 := by
      have : (0 : Int) < (mag : Int) := by exact_mod_cast hmagpos
      omega
    simp [hlt]

/-- C9 witness: the example of the spec — "10.5" at six decimals encodes
to raw unit 10500000 and decodes back to "10.5". -/
theorem C9_decimal_roundtrip_witness :
    ((∀ x ∈ ([5] : List Nat), x < 10) ∧
      ([5] : List Nat).getLast? ≠ some 0 ∧
      ([5] : List Nat).length ≤ 6 ∧
      (false = true → ¬((10 : Nat) = 0 ∧ ([5] : List Nat) = []))) ∧
    Viem.parseUnits ⟨false, 10, [5]⟩ 6 = some 10500000 ∧
    Viem.formatUnits 10500000 6 = ⟨false, 10, [5]⟩ := by
  refine ⟨⟨by decide, by decide, by decide, by decide⟩, by decide, ?_⟩
  obtain ⟨raw, h1, h2⟩ := C9_decimal_roundtrip ⟨false, 10, [5]⟩ 6
    (by decide) (by decide) (by decide) (by decide)
  have h3 : Viem.parseUnits ⟨false, 10, [5]⟩ 6 = some 10500000 := by
    decide
  rw [h3] at h1
  rw [← Option.some_inj.mp h1] at h2
  exact h2
